import Mathlib

/-!
Shallow embedding of the data-shaping layer of the `jo-data` Streamlit
dashboard (`src/app/main.py`).  Tables are lists of rows; comma-delimited
multi-value cells are split as Python `str.split(",")` does; missing values
(pandas `NaN`) are modelled as `none`, and operations that raise a Python
exception return `Except Unit`.
-/

namespace JoData

/-- One cell of a generic dataframe: a string value, or `none` for a missing
value (pandas `NaN`). -/
abbrev Cell := Option String

/-- A generic dataframe row: an association list from column name to cell,
as used by `filter_by_multiselect` and the distinct-value enumerations,
which are generic over the dataframe's columns. -/
structure DFRow where
  cells : List (String × Cell)
deriving DecidableEq

/-- Column access `df[column]` for one row: the cell stored under `column`, `none` when the
column is absent (pandas would hold `NaN` there). -/
def getCell (r : DFRow) (column : String) : Cell :=
  match r.cells.lookup column with
  | some v => v
  | none => none

/-- Python `s.split(",")` on the underlying character list: splits at every
comma, keeping empty fragments, and yields `[""]` on the empty string. -/
def pySplitAux : List Char → List Char → List (List Char)
  | [], acc => [acc.reverse]
  | c :: cs, acc =>
    if c = ',' then acc.reverse :: pySplitAux cs [] else pySplitAux cs (c :: acc)

/-- Python `s.split(",")`. -/
def pySplit (s : String) : List String :=
  (pySplitAux s.toList []).map (fun cs => String.mk cs)

/-- The row predicate of `main.py:61`:
`any(val in x for val in selected_values)` where `x = cell.split(",")`.
A missing cell yields `false` here; the filter itself raises on it
(pandas `str.split` turns `NaN` into `NaN`, and `val in NaN` is a
`TypeError`). -/
def splitIntersects (selected_values : List String) (cell : Cell) : Bool :=
  match cell with
  | some s => selected_values.any (fun v => (pySplit s).contains v)
  | none => false

/-- The boolean mask built row by row by
`df[column].str.split(",").apply(lambda x: any(val in x for val in selected_values))`
(`main.py:61`).  A row whose cell is missing makes the whole computation
raise `TypeError` (`val in NaN`), modelled as `Except.error ()`. -/
def buildMask (column : String) (selected_values : List String) :
    List DFRow → Except Unit (List Bool)
  | [] => .ok []
  | r :: rs =>
    match getCell r column with
    | some s =>
      match buildMask column selected_values rs with
      | .ok mask => .ok ((selected_values.any (fun v => (pySplit s).contains v)) :: mask)
      | .error e => .error e
    | none => .error ()

/-- Boolean indexing `df[mask]`: keep the rows whose mask entry is `true`. -/
def maskFilter : List DFRow → List Bool → List DFRow
  | r :: rs, b :: bs => if b then r :: maskFilter rs bs else maskFilter rs bs
  | _, _ => []

/-- The function `filter_by_multiselect` (`main.py:59-62`): with a non-empty selection,
keep the rows whose comma-split cell contains at least one selected value;
with an empty selection (`if selected_values:` falsy) return `df` unchanged. -/
def filter_by_multiselect (df : List DFRow) (column : String)
    (selected_values : List String) : Except Unit (List DFRow) :=
  if selected_values.isEmpty then .ok df
  else
    match buildMask column selected_values df with
    | .ok mask => .ok (maskFilter df mask)
    | .error e => .error e

/-! ### Basic lemmas about the multiselect filter -/

instance {ε α : Type} [DecidableEq ε] [DecidableEq α] : DecidableEq (Except ε α) :=
  fun a b =>
    match a, b with
    | .ok x, .ok y =>
      if h : x = y then .isTrue (by rw [h]) else .isFalse (by simp [h])
    | .error x, .error y =>
      if h : x = y then .isTrue (by rw [h]) else .isFalse (by simp [h])
    | .ok _, .error _ => .isFalse (by simp)
    | .error _, .ok _ => .isFalse (by simp)

theorem buildMask_ok_of_isSome (column : String) (selected_values : List String) :
    ∀ df : List DFRow, (∀ r ∈ df, (getCell r column).isSome) →
      buildMask column selected_values df =
        .ok (df.map (fun r => splitIntersects selected_values (getCell r column)))
  | [], _ => rfl
  | r :: rs, h => by
    have hr : (getCell r column).isSome := h r (List.mem_cons_self r rs)
    obtain ⟨s, hs⟩ := Option.isSome_iff_exists.mp hr
    have ih := buildMask_ok_of_isSome column selected_values rs
      (fun x hx => h x (List.mem_cons_of_mem r hx))
    simp [buildMask, hs, ih, splitIntersects]

theorem maskFilter_map_eq_filter (p : DFRow → Bool) :
    ∀ df : List DFRow, maskFilter df (df.map p) = df.filter p
  | [] => rfl
  | r :: rs => by
    by_cases hb : p r <;> simp [maskFilter, hb, maskFilter_map_eq_filter p rs, List.filter_cons]

theorem maskFilter_sublist : ∀ (df : List DFRow) (mask : List Bool),
    (maskFilter df mask).Sublist df
  | [], _ => by simp [maskFilter]
  | _ :: _, [] => by simp [maskFilter]
  | r :: rs, b :: bs => by
    by_cases hb : b
    · simpa [maskFilter, hb] using (maskFilter_sublist rs bs).cons₂ r
    · simpa [maskFilter, hb] using (maskFilter_sublist rs bs).cons r

theorem buildMask_error (column : String) (selected_values : List String) :
    ∀ (df : List DFRow) (r : DFRow), r ∈ df → getCell r column = none →
      buildMask column selected_values df = .error ()
  | [], _, hmem, _ => absurd hmem (List.not_mem_nil _)
  | a :: rs, r, hmem, hnone => by
    rcases List.mem_cons.mp hmem with h | h
    · subst h
      simp [buildMask, hnone]
    · cases ha : getCell a column with
      | none => simp [buildMask, ha]
      | some s =>
        have ih := buildMask_error column selected_values rs r h hnone
        simp [buildMask, ha, ih]

/-! ### Claim theorems about `filter_by_multiselect` -/

/-- C2: with an empty selection, `filter_by_multiselect` is the identity on the
table — same rows, same count, same order (`if selected_values:` is falsy). -/
theorem filter_by_multiselect_empty_id (df : List DFRow) (column : String) :
    filter_by_multiselect df column [] = .ok df := rfl

/-- C1: with a non-empty selection over a column whose cells are all present
strings, `filter_by_multiselect` keeps exactly the rows whose comma-split cell
shares at least one value with the selection (logical OR), in order: the result
is the `List.filter` of the intersection predicate. -/
theorem filter_by_multiselect_eq_filter (df : List DFRow) (column : String)
    (selected_values : List String) (hne : selected_values ≠ [])
    (hstr : ∀ r ∈ df, (getCell r column).isSome) :
    filter_by_multiselect df column selected_values =
      .ok (df.filter (fun r => splitIntersects selected_values (getCell r column))) := by
  have hemp : selected_values.isEmpty = false := by
    cases selected_values with
    | nil => exact absurd rfl hne
    | cons a l => rfl
  rw [filter_by_multiselect, hemp]
  rw [buildMask_ok_of_isSome column selected_values df hstr]
  simp [maskFilter_map_eq_filter]

/-- A two-row datasets table: one row tagged `Geodata` only, one tagged both
`Geodata` and `Sport`. -/
def exDatasets : List DFRow :=
  [⟨[("theme", some "Geodata")]⟩, ⟨[("theme", some "Geodata,Sport")]⟩]

/-- Witness for C1: on the concrete two-row table, selecting `["Sport"]` keeps
exactly the `Geodata,Sport` row. -/
theorem filter_by_multiselect_eq_filter_witness :
    (["Sport"] ≠ ([] : List String)) ∧
      filter_by_multiselect exDatasets "theme" ["Sport"] =
        .ok (exDatasets.filter
          (fun r => splitIntersects ["Sport"] (getCell r "theme"))) :=
  ⟨by decide,
    filter_by_multiselect_eq_filter exDatasets "theme" ["Sport"]
      (by decide) (by decide)⟩

/-- C10: a successful `filter_by_multiselect` returns a sublist of the input:
no row is duplicated, fabricated, or reordered. -/
theorem filter_by_multiselect_ok_sublist (df : List DFRow) (column : String)
    (selected_values : List String) (res : List DFRow)
    (h : filter_by_multiselect df column selected_values = .ok res) :
    res.Sublist df := by
  rw [filter_by_multiselect] at h
  by_cases hemp : selected_values.isEmpty
  · rw [if_pos hemp] at h
    cases h
    exact List.Sublist.refl df
  · rw [if_neg hemp] at h
    cases hmask : buildMask column selected_values df with
    | ok mask =>
      rw [hmask] at h
      cases h
      exact maskFilter_sublist df mask
    | error e =>
      rw [hmask] at h
      cases h

/-- Witness for C10: on the concrete table the filter succeeds and its output
is a sublist of the input. -/
theorem filter_by_multiselect_ok_sublist_witness :
    ([(⟨[("theme", some "Geodata,Sport")]⟩ : DFRow)]).Sublist exDatasets :=
  filter_by_multiselect_ok_sublist exDatasets "theme" ["Sport"]
    [⟨[("theme", some "Geodata,Sport")]⟩] (by decide)

/-! ### C8: a missing multi-value cell makes the filter raise -/

/-- A one-row table whose `theme` cell is missing (pandas `NaN`). -/
def exMalformed : List DFRow := [⟨[("theme", none)]⟩]

/-- C8 counterexample: on a row with a missing multi-value cell and a
non-empty selection, `filter_by_multiselect` raises (`val in NaN` is a
`TypeError`) instead of treating the row as having zero atomic values. -/
theorem filter_by_multiselect_null_cex :
    filter_by_multiselect exMalformed "theme" ["Geodata"] = .error () := by decide

/-- C8 amended: whenever some row's multi-value cell is missing, any call of
`filter_by_multiselect` with a non-empty selection raises a `TypeError`
(the row is not treated as having zero atomic values); with an empty
selection the filter is the identity, so the row is retained unchanged. -/
theorem filter_by_multiselect_null_raises (df : List DFRow) (column : String)
    (selected_values : List String) (r : DFRow) (hmem : r ∈ df)
    (hnull : getCell r column = none) (hne : selected_values ≠ []) :
    filter_by_multiselect df column selected_values = .error () ∧
      filter_by_multiselect df column [] = .ok df := by
  have hemp : selected_values.isEmpty = false := by
    cases selected_values with
    | nil => exact absurd rfl hne
    | cons a l => rfl
  refine ⟨?_, rfl⟩
  rw [filter_by_multiselect, hemp]
  rw [buildMask_error column selected_values df r hmem hnull]
  simp

/-- Witness for the amended C8 at the concrete malformed table. -/
theorem filter_by_multiselect_null_raises_witness :
    ((⟨[("theme", none)]⟩ : DFRow) ∈ exMalformed) ∧
      (filter_by_multiselect exMalformed "theme" ["Sport"] = .error () ∧
        filter_by_multiselect exMalformed "theme" [] = .ok exMalformed) :=
  ⟨by decide,
    filter_by_multiselect_null_raises exMalformed "theme" ["Sport"]
      ⟨[("theme", none)]⟩ (by decide) (by decide) (by decide)⟩

/-! ### C3: distinct-value enumeration
`datasets["theme"].str.split(",").explode().unique()` (`main.py:65`), likewise
for `sports` (`main.py:99`). -/

/-- pandas `.str.split(",")` followed by `.explode()` on a single cell: a string cell
becomes its comma-split atomic tokens, a missing cell stays a single `NaN`. -/
def explodeSplit (cell : Cell) : List Cell :=
  match cell with
  | some s => (pySplit s).map some
  | none => [none]

/-- pandas `.unique()`: distinct values in order of first appearance. -/
def uniqueFirstAux {α : Type} [DecidableEq α] (seen : List α) : List α → List α
  | [] => []
  | x :: xs =>
    if x ∈ seen then uniqueFirstAux seen xs else x :: uniqueFirstAux (x :: seen) xs

/-- pandas `.unique()`: distinct values in order of first appearance. -/
def uniqueFirst {α : Type} [DecidableEq α] (l : List α) : List α :=
  uniqueFirstAux [] l

/-- The enumeration `df[column].str.split(",").explode().unique()`. -/
def enumerateDistinctValues (df : List DFRow) (column : String) : List Cell :=
  uniqueFirst ((df.map (fun r => explodeSplit (getCell r column))).flatten)

theorem mem_uniqueFirstAux {α : Type} [DecidableEq α] (x : α) :
    ∀ (seen l : List α), (x ∈ uniqueFirstAux seen l ↔ x ∈ l ∧ x ∉ seen)
  | seen, [] => by simp [uniqueFirstAux]
  | seen, y :: ys => by
    by_cases hy : y ∈ seen
    · rw [uniqueFirstAux, if_pos hy, mem_uniqueFirstAux x seen ys, List.mem_cons]
      constructor
      · rintro ⟨hx, hs⟩
        exact ⟨Or.inr hx, hs⟩
      · rintro ⟨hor, hs⟩
        rcases hor with rfl | hx
        · exact absurd hy hs
        · exact ⟨hx, hs⟩
    · rw [uniqueFirstAux, if_neg hy]
      constructor
      · intro hmem
        rcases List.mem_cons.mp hmem with rfl | htail
        · exact ⟨List.mem_cons_self x ys, hy⟩
        · obtain ⟨hx, hs⟩ := (mem_uniqueFirstAux x (y :: seen) ys).mp htail
          exact ⟨List.mem_cons_of_mem y hx,
            fun hmem2 => hs (List.mem_cons_of_mem y hmem2)⟩
      · rintro ⟨hmem, hs⟩
        rcases List.mem_cons.mp hmem with rfl | hx
        · exact List.mem_cons_self x _
        · by_cases hxy : x = y
          · subst hxy
            exact List.mem_cons_self x _
          · refine List.mem_cons_of_mem y
              ((mem_uniqueFirstAux x (y :: seen) ys).mpr ⟨hx, ?_⟩)
            intro hmem2
            rcases List.mem_cons.mp hmem2 with rfl | h2
            · exact hxy rfl
            · exact hs h2

theorem nodup_uniqueFirstAux {α : Type} [DecidableEq α] :
    ∀ (seen l : List α), (uniqueFirstAux seen l).Nodup
  | _, [] => List.nodup_nil
  | seen, y :: ys => by
    by_cases hy : y ∈ seen
    · rw [uniqueFirstAux, if_pos hy]
      exact nodup_uniqueFirstAux seen ys
    · rw [uniqueFirstAux, if_neg hy]
      refine List.nodup_cons.mpr ⟨?_, nodup_uniqueFirstAux (y :: seen) ys⟩
      intro hmem
      exact ((mem_uniqueFirstAux y (y :: seen) ys).mp hmem).2 (List.mem_cons_self y seen)

theorem mem_explodeSplit (x : String) (cell : Cell) :
    some x ∈ explodeSplit cell ↔ ∃ s, cell = some s ∧ x ∈ pySplit s := by
  cases cell with
  | some s =>
    simp only [explodeSplit, List.mem_map, Option.some.injEq]
    constructor
    · rintro ⟨a, ha, rfl⟩
      exact ⟨s, rfl, ha⟩
    · rintro ⟨t, ht, hx⟩
      cases ht
      exact ⟨x, hx, rfl⟩
  | none => simp [explodeSplit]

/-- C3: the distinct-value enumeration contains exactly the atomic tokens
occurring across all rows of the column (compared exactly as stored), never
repeats a value, and on the two-row example table with themes
`Geodata` and `Geodata,Sport` it yields exactly `Geodata` and `Sport`. -/
theorem enumerateDistinctValues_spec :
    (∀ (df : List DFRow) (column : String) (x : String),
        (some x ∈ enumerateDistinctValues df column ↔
          ∃ r ∈ df, ∃ s, getCell r column = some s ∧ x ∈ pySplit s)) ∧
      (∀ (df : List DFRow) (column : String),
        (enumerateDistinctValues df column).Nodup) ∧
      enumerateDistinctValues exDatasets "theme" = [some "Geodata", some "Sport"] := by
  refine ⟨?_, ?_, by decide⟩
  · intro df column x
    rw [enumerateDistinctValues, uniqueFirst,
      mem_uniqueFirstAux (some x) [] _]
    simp only [List.not_mem_nil, not_false_iff, and_true, List.mem_flatten,
      List.mem_map]
    constructor
    · rintro ⟨l, ⟨r, hr, rfl⟩, hx⟩
      obtain ⟨s, hs, hxs⟩ := (mem_explodeSplit x (getCell r column)).mp hx
      exact ⟨r, hr, s, hs, hxs⟩
    · rintro ⟨r, hr, s, hs, hxs⟩
      exact ⟨explodeSplit (getCell r column), ⟨r, hr, rfl⟩,
        (mem_explodeSplit x (getCell r column)).mpr ⟨s, hs, hxs⟩⟩
  · intro df column
    exact nodup_uniqueFirstAux [] _

/-! ### Country and athlete medal tallies (`display_medals_data`, `main.py:128-177`) -/

/-- One row of the country medal tally. -/
structure CountryRow where
  country : String
  code : String
  gold : Nat
  silver : Nat
  bronze : Nat
  total : Nat
deriving DecidableEq

/-- One row of the athlete medal tally. -/
structure AthleteRow where
  athlete : String
  code : String
  gold : Nat
  silver : Nat
  bronze : Nat
  total : Nat
deriving DecidableEq

/-- An athlete row after the merge of `main.py:131`, with the imported
`country` column (`none` when no country row matched the athlete's code). -/
structure MergedAthleteRow where
  base : AthleteRow
  country : Option String
deriving DecidableEq

/-- The merge `athletes_medals.merge(medals[["code", "country"]], on="code", how="left")`
(`main.py:131`): for each athlete row in order, one output row per matching
country row, and an athlete with no matching code keeps a missing (`NaN`)
country name instead of being dropped. -/
def mergeLeftOnCode (athletes : List AthleteRow) (medals : List CountryRow) :
    List MergedAthleteRow :=
  athletes.flatMap (fun a =>
    match medals.filter (fun c => c.code == a.code) with
    | [] => [⟨a, none⟩]
    | ms => ms.map (fun c => ⟨a, some c.country⟩))

/-- The membership filter `medals[medals["country"].isin(selected_countries_command)]`
(`main.py:147`). -/
def isinFilter (medals : List CountryRow) (selected : List String) :
    List CountryRow :=
  medals.filter (fun r => selected.contains r.country)

/-- The row order of `sort_values("gold", ascending=False)` (`main.py:149`):
descending gold count.  pandas' default quicksort guarantees this order; the
relative order of equal-gold rows is not promised by pandas, and is fixed
stably in this model. -/
def goldGE (a b : CountryRow) : Prop := b.gold ≤ a.gold

instance : DecidableRel goldGE := fun a b => Nat.decLe b.gold a.gold

instance : IsTotal CountryRow goldGE := ⟨fun a b => Nat.le_total b.gold a.gold⟩

instance : IsTrans CountryRow goldGE := ⟨fun _ _ _ hab hbc => le_trans hbc hab⟩

/-- The sort `selected_countries.sort_values("gold", ascending=False)` (`main.py:149`). -/
def sort_values_gold (rows : List CountryRow) : List CountryRow :=
  List.insertionSort goldGE rows

/-- Positional slicing `.iloc[lo:hi]` for `0 ≤ lo ≤ hi`: Python slicing clamps out-of-range
bounds instead of erroring. -/
def ilocSlice (lo hi : Nat) (rows : List CountryRow) : List CountryRow :=
  (rows.drop lo).take (hi - lo)

/-- Lines `main.py:149-150`: sort by gold descending, then slice to the slider
window `[lo, hi)`. -/
def topNByGold (rows : List CountryRow) (lo hi : Nat) : List CountryRow :=
  ilocSlice lo hi (sort_values_gold rows)

/-- Lines `main.py:147-150`: the whole country-medal tab pipeline — restrict to the
selected countries, sort by gold descending, slice to the slider window. -/
def countryMedalView (medals : List CountryRow) (selected : List String)
    (lo hi : Nat) : List CountryRow :=
  topNByGold (isinFilter medals selected) lo hi

/-! ### C9: empty country selection renders an empty view without error -/

/-- C9: selecting zero countries makes the country medal view come out empty,
whatever the slider bounds: the `isin` filter keeps nothing, and sorting and
slicing the empty table succeed, yielding zero rows. -/
theorem countryMedalView_empty_selection (medals : List CountryRow)
    (lo hi : Nat) : countryMedalView medals [] lo hi = [] := by
  have h1 : isinFilter medals [] = [] := by
    simp [isinFilter]
  simp [countryMedalView, topNByGold, h1, sort_values_gold, ilocSlice]

/-! ### C6: idempotence of the sort-and-slice, and clamping -/

/-- A four-row tally with pairwise distinct gold counts, already in
descending-gold order. -/
def exShort : List CountryRow :=
  [⟨"A", "A", 4, 0, 0, 4⟩, ⟨"B", "B", 3, 0, 0, 3⟩,
    ⟨"C", "C", 2, 0, 0, 2⟩, ⟨"D", "D", 1, 0, 0, 1⟩]

/-- C6 counterexample: with `rangeStart = 1` the sort-and-slice is not
idempotent — re-applying bounds `[1, 3)` to its own two-row output shifts the
window again and returns a single row. -/
theorem topNByGold_not_idempotent_cex :
    topNByGold (topNByGold exShort 1 3) 1 3 ≠ topNByGold exShort 1 3 := by decide

/-- C6 amended: re-applying the sort-and-slice with the same bounds and
`rangeStart = 0` returns the same rows as a multiset (a permutation) for every
table, and literally the same row sequence when the gold counts are pairwise
distinct, so that the descending-gold order is unique — with tied gold counts
the source's `sort_values` (pandas' default quicksort) does not promise the
order of the re-sorted sequence, so the sequence-level statement is restricted
to tie-free tables; with `rangeStart > 0` re-application shifts the window
(see the counterexample).  A `rangeEnd` exceeding the row count is clamped to
the row count without error.  The deterministic model does not itself need the
distinctness hypothesis; it is there so that the sequence statement also holds
of the source's unstable sort, where only the sorted order — unique exactly
when the keys are distinct — is guaranteed. -/
theorem topNByGold_idempotent_amended :
    (∀ (rows : List CountryRow) (hi : Nat),
        (topNByGold (topNByGold rows 0 hi) 0 hi).Perm (topNByGold rows 0 hi)) ∧
      (∀ (rows : List CountryRow) (hi : Nat),
        rows.Pairwise (fun a b => a.gold ≠ b.gold) →
          topNByGold (topNByGold rows 0 hi) 0 hi = topNByGold rows 0 hi) ∧
      (∀ (rows : List CountryRow) (lo k : Nat),
        topNByGold rows lo (rows.length + k) = topNByGold rows lo rows.length) := by
  refine ⟨?_, ?_, ?_⟩
  · intro rows hi
    unfold topNByGold ilocSlice
    simp only [List.drop_zero, Nat.sub_zero]
    have hlenA : ((sort_values_gold rows).take hi).length ≤ hi := by
      rw [List.length_take]
      exact min_le_left _ _
    have hlenS : (sort_values_gold ((sort_values_gold rows).take hi)).length =
        ((sort_values_gold rows).take hi).length :=
      (List.perm_insertionSort goldGE _).length_eq
    rw [List.take_of_length_le (by rw [hlenS]; exact hlenA)]
    exact List.perm_insertionSort goldGE _
  · intro rows hi hdist
    unfold topNByGold ilocSlice
    simp only [List.drop_zero, Nat.sub_zero]
    have hsorted : List.Sorted goldGE (List.insertionSort goldGE rows) :=
      List.sorted_insertionSort goldGE rows
    have hst : List.Sorted goldGE ((List.insertionSort goldGE rows).take hi) :=
      List.Pairwise.sublist (List.take_sublist hi _) hsorted
    unfold sort_values_gold
    rw [List.Sorted.insertionSort_eq hst, List.take_take]
    simp
  · intro rows lo k
    unfold topNByGold ilocSlice
    have hlen : (sort_values_gold rows).length = rows.length :=
      (List.perm_insertionSort goldGE rows).length_eq
    have hd : ((sort_values_gold rows).drop lo).length = rows.length - lo := by
      rw [List.length_drop, hlen]
    have h1 : ((sort_values_gold rows).drop lo).length ≤ rows.length + k - lo := by
      rw [hd]
      omega
    have h2 : ((sort_values_gold rows).drop lo).length ≤ rows.length - lo := by
      rw [hd]
    rw [List.take_of_length_le h1, List.take_of_length_le h2]

/-- Witness for the amended C6: the four-row table has pairwise distinct gold
counts, and re-applying bounds `[0, 3)` to its own output returns the same
row sequence. -/
theorem topNByGold_idempotent_amended_witness :
    exShort.Pairwise (fun a b => a.gold ≠ b.gold) ∧
      topNByGold (topNByGold exShort 0 3) 0 3 = topNByGold exShort 0 3 :=
  ⟨by decide, topNByGold_idempotent_amended.2.1 exShort 3 (by decide)⟩

/-! ### C4: the country medal tab ranks by gold count, not by total -/

/-- Ranking order claimed by the spec's scenario 3: descending total. -/
def totalGE (a b : CountryRow) : Prop := b.total ≤ a.total

instance : DecidableRel totalGE := fun a b => Nat.decLe b.total a.total

/-- Modelled from the spec's words (scenario 3), for comparison with the
code's pipeline: the rows ranked 1st through 10th by total medal count, in
descending order of total. -/
def spec_topTenByTotal (medals : List CountryRow) : List CountryRow :=
  (List.insertionSort totalGE medals).take 10

/-- A 15-country tally sorted descending by total, whose last-ranked country
nevertheless has the most golds. -/
def ex15 : List CountryRow :=
  [⟨"C01", "C01", 15, 0, 0, 15⟩, ⟨"C02", "C02", 14, 0, 0, 14⟩,
    ⟨"C03", "C03", 13, 0, 0, 13⟩, ⟨"C04", "C04", 12, 0, 0, 12⟩,
    ⟨"C05", "C05", 11, 0, 0, 11⟩, ⟨"C06", "C06", 10, 0, 0, 10⟩,
    ⟨"C07", "C07", 9, 0, 0, 9⟩, ⟨"C08", "C08", 8, 0, 0, 8⟩,
    ⟨"C09", "C09", 7, 0, 0, 7⟩, ⟨"C10", "C10", 6, 0, 0, 6⟩,
    ⟨"C11", "C11", 5, 0, 0, 5⟩, ⟨"C12", "C12", 4, 0, 0, 4⟩,
    ⟨"C13", "C13", 3, 0, 0, 3⟩, ⟨"C14", "C14", 2, 0, 0, 2⟩,
    ⟨"C15", "C15", 100, 0, 0, 1⟩]

/-- All fifteen country names of `ex15`. -/
def ex15Names : List String :=
  ["C01", "C02", "C03", "C04", "C05", "C06", "C07", "C08", "C09", "C10",
    "C11", "C12", "C13", "C14", "C15"]

/-- C4 counterexample: on a 15-country table sorted descending by total, the
country medal view with slider `[0, 10]` does not return the rows ranked
1st–10th by total — the code sorts by `gold` (`main.py:149`), so the
gold-rich, total-poor 15th country is ranked first. -/
theorem countryMedalView_not_by_total_cex :
    ex15.length = 15 ∧ List.Sorted totalGE ex15 ∧
      countryMedalView ex15 ex15Names 0 10 ≠ spec_topTenByTotal ex15 := by
  refine ⟨by decide, by decide, by decide⟩

/-- C4 amended: with every country selected and slider `[0, 10]` on a
15-country table, the view returns exactly the 10 rows ranked highest by
gold count, in descending order of gold: 10 rows, sorted descending by gold,
every excluded row having at most as many golds as every returned row, and
equal to the 10-row head of the gold-descending sort. -/
theorem countryMedalView_top10_by_gold (medals : List CountryRow)
    (selected : List String) (h15 : medals.length = 15)
    (hall : ∀ r ∈ medals, selected.contains r.country = true) :
    (countryMedalView medals selected 0 10).length = 10 ∧
      List.Sorted goldGE (countryMedalView medals selected 0 10) ∧
      (∀ r ∈ countryMedalView medals selected 0 10, ∀ q ∈ medals,
        q ∉ countryMedalView medals selected 0 10 → q.gold ≤ r.gold) ∧
      countryMedalView medals selected 0 10 = (sort_values_gold medals).take 10 := by
  have hfil : isinFilter medals selected = medals := List.filter_eq_self.mpr hall
  have hview : countryMedalView medals selected 0 10 =
      (sort_values_gold medals).take 10 := by
    unfold countryMedalView topNByGold ilocSlice
    rw [hfil]
    simp
  have hlen : (sort_values_gold medals).length = medals.length :=
    (List.perm_insertionSort goldGE medals).length_eq
  have hsorted : List.Sorted goldGE (sort_values_gold medals) :=
    List.sorted_insertionSort goldGE medals
  refine ⟨?_, ?_, ?_, hview⟩
  · rw [hview, List.length_take, hlen, h15]
    decide
  · rw [hview]
    exact List.Pairwise.sublist (List.take_sublist _ _) hsorted
  · intro r hr q hq hqnot
    rw [hview] at hr hqnot
    have hqs : q ∈ sort_values_gold medals :=
      (List.perm_insertionSort goldGE medals).mem_iff.mpr hq
    have hsplit := List.take_append_drop 10 (sort_values_gold medals)
    have hq2 : q ∈ (sort_values_gold medals).take 10 ++
        (sort_values_gold medals).drop 10 := by
      rw [hsplit]
      exact hqs
    rcases List.mem_append.mp hq2 with h | h
    · exact absurd h hqnot
    · have hpw : List.Pairwise goldGE ((sort_values_gold medals).take 10 ++
          (sort_values_gold medals).drop 10) := by
        rw [hsplit]
        exact hsorted
      exact (List.pairwise_append.mp hpw).2.2 r hr q h

/-- Witness for the amended C4 at the concrete 15-country table. -/
theorem countryMedalView_top10_by_gold_witness :
    ex15.length = 15 ∧ (∀ r ∈ ex15, ex15Names.contains r.country = true) ∧
      ((countryMedalView ex15 ex15Names 0 10).length = 10 ∧
        List.Sorted goldGE (countryMedalView ex15 ex15Names 0 10) ∧
        (∀ r ∈ countryMedalView ex15 ex15Names 0 10, ∀ q ∈ ex15,
          q ∉ countryMedalView ex15 ex15Names 0 10 → q.gold ≤ r.gold) ∧
        countryMedalView ex15 ex15Names 0 10 = (sort_values_gold ex15).take 10) :=
  ⟨by decide, by decide,
    countryMedalView_top10_by_gold ex15 ex15Names (by decide) (by decide)⟩

/-! ### C7: the display-time merge is a left-outer join -/

theorem filter_code_cases (medals : List CountryRow) (k : String)
    (h : (medals.map (fun c => c.code)).Nodup) :
    medals.filter (fun c => c.code == k) = [] ∨
      ∃ c, medals.filter (fun c => c.code == k) = [c] := by
  induction medals with
  | nil => exact Or.inl rfl
  | cons m ms ih =>
    rw [List.map_cons, List.nodup_cons] at h
    obtain ⟨hm, hms⟩ := h
    rw [List.filter_cons]
    by_cases hk : (m.code == k) = true
    · rw [if_pos hk]
      have hnil : ms.filter (fun c => c.code == k) = [] := by
        rw [List.filter_eq_nil_iff]
        intro c hc hck
        apply hm
        rw [List.mem_map]
        exact ⟨c, hc, by rw [eq_of_beq hck, ← eq_of_beq hk]⟩
      rw [hnil]
      exact Or.inr ⟨m, rfl⟩
    · rw [if_neg hk]
      exact ih hms

/-- C7: when the country tally has pairwise distinct codes, the left merge of
athletes with countries keeps exactly the athlete rows, in order (so the left
row count is preserved and no athlete is dropped), and an athlete whose code
matches no country keeps a missing country name. -/
theorem mergeLeftOnCode_left_outer (athletes : List AthleteRow)
    (medals : List CountryRow)
    (h : (medals.map (fun c => c.code)).Nodup) :
    ((mergeLeftOnCode athletes medals).map (fun j => j.base) = athletes) ∧
      (mergeLeftOnCode athletes medals).length = athletes.length ∧
      (∀ j ∈ mergeLeftOnCode athletes medals,
        (∀ c ∈ medals, c.code ≠ j.base.code) → j.country = none) := by
  have hbase : ∀ athletes' : List AthleteRow,
      (mergeLeftOnCode athletes' medals).map (fun j => j.base) = athletes' := by
    intro athletes'
    induction athletes' with
    | nil => rfl
    | cons a as ih =>
      simp only [mergeLeftOnCode] at ih ⊢
      rw [List.flatMap_cons, List.map_append]
      rcases filter_code_cases medals a.code h with hnil | ⟨c, hc⟩
      · rw [hnil]
        simp [ih]
      · rw [hc]
        simp [ih]
  have hnone : ∀ athletes' : List AthleteRow, ∀ j ∈ mergeLeftOnCode athletes' medals,
      (∀ c ∈ medals, c.code ≠ j.base.code) → j.country = none := by
    intro athletes'
    induction athletes' with
    | nil =>
      intro j hj
      exact absurd hj (List.not_mem_nil j)
    | cons a as ih =>
      intro j hj hnomatch
      rw [mergeLeftOnCode, List.flatMap_cons] at hj
      rcases List.mem_append.mp hj with hhead | htail
      · cases hfil : medals.filter (fun c => c.code == a.code) with
        | nil =>
          rw [hfil] at hhead
          have : j = ⟨a, none⟩ := by simpa using hhead
          rw [this]
        | cons c cs =>
          rw [hfil] at hhead
          obtain ⟨c', hc', hj'⟩ := List.mem_map.mp hhead
          have hc'mem : c' ∈ medals.filter (fun x => x.code == a.code) := by
            rw [hfil]
            exact hc'
          have hc'2 := List.mem_filter.mp hc'mem
          have hcode : c'.code = a.code := by
            have := hc'2.2
            exact eq_of_beq this
          have hbj : j.base = a := by
            rw [← hj']
          exact absurd (by rw [hcode, hbj]) (hnomatch c' hc'2.1)
      · exact ih j htail hnomatch
  refine ⟨hbase athletes, ?_, hnone athletes⟩
  have hcong := congrArg List.length (hbase athletes)
  rw [List.length_map] at hcong
  exact hcong

/-- Two athletes: one whose code matches the one-row country tally, one whose
code matches nothing. -/
def exAthletes : List AthleteRow :=
  [⟨"Ana", "FRA", 2, 0, 0, 2⟩, ⟨"Bob", "XYZ", 0, 1, 0, 1⟩]

/-- A one-row country tally. -/
def exMedalsFRA : List CountryRow := [⟨"France", "FRA", 16, 26, 22, 64⟩]

/-- Witness for C7 at a concrete pair of tables: both athletes survive the
merge and the unmatched one keeps a missing country name. -/
theorem mergeLeftOnCode_left_outer_witness :
    (exMedalsFRA.map (fun c => c.code)).Nodup ∧
      (((mergeLeftOnCode exAthletes exMedalsFRA).map (fun j => j.base) =
          exAthletes) ∧
        (mergeLeftOnCode exAthletes exMedalsFRA).length = exAthletes.length ∧
        (∀ j ∈ mergeLeftOnCode exAthletes exMedalsFRA,
          (∀ c ∈ exMedalsFRA, c.code ≠ j.base.code) → j.country = none)) :=
  ⟨by decide, mergeLeftOnCode_left_outer exAthletes exMedalsFRA (by decide)⟩

end JoData
